import Mathlib

/-!
Verification development for the ULLA2023 QSAR-modelling workshop notebook
(`QSAR_modelling.ipynb`).  The notebook's own code is pandas-style table
manipulation: row filtering by accession and quality, group-by aggregation of
pChEMBL values per Murcko scaffold, descending sorts, and head slices.  The
operations delegated to the QSPRPred library (random train/test split, Morgan
fingerprints, the prediction entry point, regression metrics, the
`MoleculeTable` wrapper) are modelled from the specification, as marked on
each definition.
-/

namespace QSAR

/-- One row of the bioactivity table read from `data/papyrus_data.tsv`:
an `accession` identifier, a `Quality` label, a SMILES string, the Murcko
scaffold column added by `dataset.addScaffolds([Murcko()])`, and the target
value `pchembl_value_Median` (modelled as a rational). -/
structure Record where
  accession : String
  quality : String
  smiles : String
  scaffold : String
  pchembl : ℚ
deriving DecidableEq, Repr

/-- `df = df[df['accession'] == MY_TARGET]` from the notebook. -/
def filterAccession (df : List Record) (target : String) : List Record :=
  df.filter (fun r => r.accession == target)

/-- `df = df[df['Quality'].isin([...])]` from the notebook. -/
def filterQuality (df : List Record) (allowed : List String) : List Record :=
  df.filter (fun r => allowed.contains r.quality)

/-- Modelled from the spec: the `MoleculeTable` wrapper of the QSPRPred
library (not in this repository) wraps a filtered record table together with
a dataset name; `mt.getDF()` returns the wrapped table unchanged. -/
structure MoleculeTable where
  name : String
  df : List Record

/-- Modelled from the spec: `MoleculeTable(df=df, name=..., store_dir=...)`
construction, which stores the filtered rows as given. -/
def mkMoleculeTable (name : String) (df : List Record) : MoleculeTable :=
  ⟨name, df⟩

/-- The pChEMBL values of the records carrying scaffold `s`
(the group selected by `groupby('Scaffold_Murcko')`). -/
def groupValues (df : List Record) (s : String) : List ℚ :=
  (df.filter (fun r => r.scaffold == s)).map (fun r => r.pchembl)

/-- `groupby('Scaffold_Murcko')['pchembl_value_Median'].mean()` for one group. -/
def groupMean (df : List Record) (s : String) : ℚ :=
  (groupValues df s).sum / (groupValues df s).length

/-- `groupby('Scaffold_Murcko')['pchembl_value_Median'].count()` for one group. -/
def groupCount (df : List Record) (s : String) : ℕ :=
  (groupValues df s).length

/-- One row of the aggregated `scaffolds` table: scaffold key, the
`Average pchembl value` column and the `Count` column. -/
structure ScaffoldRow where
  scaffold : String
  avg : ℚ
  count : ℕ
deriving DecidableEq, Repr

/-- The `scaffolds` table of the notebook before the minimum-count filter:
one row per distinct scaffold with the group mean and group count, sorted
descending by mean (`.sort_values(ascending=False)`). -/
def scaffoldTable (df : List Record) : List ScaffoldRow :=
  (((df.map (fun r => r.scaffold)).dedup).map
      (fun s => ⟨s, groupMean df s, groupCount df s⟩)).mergeSort
    (fun a b => decide (b.avg ≤ a.avg))

/-- `scaffolds = scaffolds[scaffolds['Count'] > MIN_COMPOUNDS]` from the
notebook. -/
def filterMinCount (tbl : List ScaffoldRow) (minCompounds : ℕ) : List ScaffoldRow :=
  tbl.filter (fun row => decide (minCompounds < row.count))

/-- `dataset_sorted = dataset.getDF().sort_values(by='pchembl_value_Median',
ascending=False)` from the notebook. -/
def sortValuesDesc (df : List Record) : List Record :=
  df.mergeSort (fun a b => decide (b.pchembl ≤ a.pchembl))

/-- The Python head slice `table[:k]` used with `NUM_COMPOUNDS` and
`NUM_SCAFFOLDS` in the notebook. -/
def displayTop {α : Type} (k : ℕ) (l : List α) : List α :=
  l.take k

/-- Synthetic bioactivity table of the end-to-end filtering scenario:
100 records for accession `X`, the first 80 of quality `High`. -/
def syntheticTable : List Record :=
  (List.range 100).map
    (fun i => ⟨"X", if i < 80 then "High" else "Low", "C", "C", 5⟩)

/-- Modelled from the spec: the holdout size for fraction `f` over `n`
records; the spec fixes only that the holdout is the configured fraction of
the records "within rounding", realised here by rounding up. -/
def holdoutSize (f : ℚ) (n : ℕ) : ℕ :=
  (Int.ceil (f * n)).toNat

/-- Modelled from the spec: `randomsplit(0.2)` of the QSPRPred library (not
in this repository) performs stratification-free simple random sampling with
a reproducible seed, realised here by a seeded shuffle `perm` of the records;
the first `holdoutSize` shuffled records form the holdout (test) set and the
remaining records form the training set.  Returns `(train, test)`. -/
def randomsplit (f : ℚ) (perm : List Record) : List Record × List Record :=
  (perm.drop (holdoutSize f perm.length), perm.take (holdoutSize f perm.length))

/-- Modelled from the spec: a fitted model as used by the prediction entry
point, holding the structure parser (standardisation plus descriptor
pipeline) and the scalar regressor. -/
structure FittedModel (Mol : Type) where
  parse : String → Option Mol
  predict : Mol → ℚ

/-- Modelled from the spec: `model.predictMols(list_of_smiles)` of the
QSPRPred library (not in this repository) computes one scalar prediction per
input structure in order; the reference behaviour raises on a parse failure,
modelled by returning `none` for the whole batch. -/
def predictMols {Mol : Type} (m : FittedModel Mol) : List String → Option (List ℚ)
  | [] => some []
  | s :: rest =>
    match m.parse s with
    | none => none
    | some mol =>
      match predictMols m rest with
      | none => none
      | some ps => some (m.predict mol :: ps)

/-- The `list_of_smiles` constant of the notebook's prediction cell. -/
def list_of_smiles : List String :=
  ["OCCc1ccn2cnccc12", "C1CC1Oc1cc2ccncn2c1", "CNC(=O)c1nccc2cccn12"]

/-- A concrete fitted model instance: any non-empty string parses, and every
molecule is predicted at 7. -/
def demoFitted : FittedModel Unit :=
  ⟨fun s => if s.isEmpty then none else some (), fun _ => 7⟩

/-- Modelled from the spec: hash of one atom environment, folding the
characters of the environment into a number. -/
def envHash (cs : List Char) : ℕ :=
  cs.foldl (fun a c => a * 131 + c.toNat) 7

/-- Modelled from the spec: the hashed bit positions of all atom
environments of radius at most `radius`, reduced modulo `nBits`. -/
def morganOnBits (radius nBits : ℕ) (s : String) : List ℕ :=
  (List.range s.length).flatMap (fun i =>
    (List.range (radius + 1)).map (fun r => envHash ((s.toList.drop i).take (r + 1)) % nBits))

/-- Modelled from the spec: the Morgan fingerprint descriptor set configured
by `FingerprintSet(fingerprint_type="MorganFP", radius=3, nBits=2048)` in the
notebook — a fixed-length binary vector with one bit per hash bucket. -/
def morganFP (radius nBits : ℕ) (s : String) : List Bool :=
  (List.range nBits).map (fun b => (morganOnBits radius nBits s).contains b)

/-- Squared residuals of a list of (actual, predicted) pairs. -/
def ssRes (l : List (ℚ × ℚ)) : ℚ :=
  (l.map (fun p => (p.1 - p.2) ^ 2)).sum

/-- Mean of the actual values. -/
def actualMean (l : List (ℚ × ℚ)) : ℚ :=
  (l.map (fun p => p.1)).sum / l.length

/-- Total sum of squares of the actual values around their mean. -/
def ssTot (l : List (ℚ × ℚ)) : ℚ :=
  (l.map (fun p => (p.1 - actualMean l) ^ 2)).sum

/-- Modelled from the spec: the coefficient of determination reported by
`CorrelationPlot` (library code, not in this repository): the portion of the
variance of the target explained by the model, `1 - ssRes / ssTot`. -/
def rsq (l : List (ℚ × ℚ)) : ℚ :=
  1 - ssRes l / ssTot l

/-- Mean squared error of a list of (actual, predicted) pairs. -/
def mse (l : List (ℚ × ℚ)) : ℚ :=
  ssRes l / l.length

/-- Modelled from the spec: the root mean square error reported by
`CorrelationPlot` (library code, not in this repository): the square root of
the mean squared error. -/
noncomputable def rmse (l : List (ℚ × ℚ)) : ℝ :=
  Real.sqrt ((mse l : ℚ) : ℝ)

theorem filter_self_idem {α : Type} (p : α → Bool) (l : List α) :
    (l.filter p).filter p = l.filter p := by
  induction l with
  | nil => rfl
  | cons a l ih =>
    by_cases h : p a = true
    · simp [List.filter_cons, h, ih]
    · simp only [Bool.not_eq_true] at h
      simp [List.filter_cons, h, ih]

theorem mem_filter_both (df : List Record) (t : String) (qs : List String) (r : Record) :
    r ∈ filterQuality (filterAccession df t) qs ↔
      r ∈ df ∧ r.accession = t ∧ r.quality ∈ qs := by
  have hc : ∀ s : String, qs.contains s = true ↔ s ∈ qs := by
    intro s
    rw [List.contains_iff_exists_mem_beq]
    simp
  simp only [filterQuality, filterAccession, List.mem_filter, hc, beq_iff_eq]
  tauto

/-- C5: filtering by a target accession and then by an allowed quality set
keeps exactly the rows matching both predicates; on the synthetic table of
100 records for accession `X` with 80 of quality `High`, filtering by
accession `X` and quality `High` yields exactly 80 records. -/
theorem filter_accession_quality_exact :
    (∀ (df : List Record) (t : String) (qs : List String) (r : Record),
        r ∈ filterQuality (filterAccession df t) qs ↔
          r ∈ df ∧ r.accession = t ∧ r.quality ∈ qs) ∧
      (filterQuality (filterAccession syntheticTable "X") ["High"]).length = 80 := by
  exact ⟨mem_filter_both, by decide⟩

/-- C6: applying the accession filter, respectively the quality filter,
twice with the same predicate gives the same table as applying it once. -/
theorem filter_idempotent (df : List Record) (t : String) (qs : List String) :
    filterAccession (filterAccession df t) t = filterAccession df t ∧
      filterQuality (filterQuality df qs) qs = filterQuality df qs :=
  ⟨filter_self_idem _ df, filter_self_idem _ df⟩

/-- C9: when no row matches the accession and quality predicates, the filter
returns the empty table and the molecule table built from it holds an empty
record set. -/
theorem empty_filter_empty_dataset (df : List Record) (t : String) (qs : List String)
    (h : ∀ r ∈ df, ¬(r.accession = t ∧ r.quality ∈ qs)) :
    filterQuality (filterAccession df t) qs = [] ∧
      (mkMoleculeTable t (filterQuality (filterAccession df t) qs)).df = [] := by
  have hempty : filterQuality (filterAccession df t) qs = [] := by
    rw [List.eq_nil_iff_forall_not_mem]
    intro r hr
    have hmem := (mem_filter_both df t qs r).mp hr
    exact h r hmem.1 ⟨hmem.2.1, hmem.2.2⟩
  exact ⟨hempty, by simp [mkMoleculeTable, hempty]⟩

theorem empty_filter_empty_dataset_witness :
    (∀ r ∈ ([⟨"Y", "High", "C", "C", 5⟩] : List Record),
        ¬(r.accession = "X" ∧ r.quality ∈ (["High"] : List String))) ∧
      (filterQuality (filterAccession [⟨"Y", "High", "C", "C", 5⟩] "X") ["High"] = [] ∧
        (mkMoleculeTable "X"
            (filterQuality (filterAccession [⟨"Y", "High", "C", "C", 5⟩] "X") ["High"])).df = []) :=
  ⟨by decide, empty_filter_empty_dataset [⟨"Y", "High", "C", "C", 5⟩] "X" ["High"] (by decide)⟩

/-- C3: a scaffold row survives the minimum-count filter exactly when its
compound count exceeds the threshold; equivalently, the filter removes
exactly the rows with count at most the threshold. -/
theorem filterMinCount_exact (tbl : List ScaffoldRow) (minCompounds : ℕ) (row : ScaffoldRow) :
    row ∈ filterMinCount tbl minCompounds ↔ row ∈ tbl ∧ minCompounds < row.count := by
  simp [filterMinCount, List.mem_filter]

/-- C4: every row of the aggregated scaffold table carries the arithmetic
mean of the pChEMBL values of the records with that scaffold and the number
of such records, and the table is sorted in descending order of mean. -/
theorem scaffoldTable_mean_count_sorted (df : List Record) :
    (∀ row ∈ scaffoldTable df,
        row.avg = (groupValues df row.scaffold).sum / (groupValues df row.scaffold).length ∧
          row.count = (groupValues df row.scaffold).length) ∧
      (scaffoldTable df).Pairwise (fun a b => b.avg ≤ a.avg) := by
  constructor
  · intro row hrow
    rw [scaffoldTable, List.mem_mergeSort, List.mem_map] at hrow
    obtain ⟨s, _, rfl⟩ := hrow
    exact ⟨rfl, rfl⟩
  · have hs : (scaffoldTable df).Pairwise
        (fun a b : ScaffoldRow => decide (b.avg ≤ a.avg) = true) := by
      rw [scaffoldTable]
      apply List.sorted_mergeSort
      · intro a b c hab hbc
        simp only [decide_eq_true_eq] at hab hbc ⊢
        exact le_trans hbc hab
      · intro a b
        simp only [Bool.or_eq_true, decide_eq_true_eq]
        exact le_total b.avg a.avg
    exact hs.imp (fun h => by simpa using h)

theorem scaffoldTable_mean_count_sorted_witness :
    (⟨"c1ccccc1", 5, 1⟩ : ScaffoldRow) ∈ scaffoldTable [⟨"X", "High", "Cc1ccccc1", "c1ccccc1", 5⟩] ∧
      ((⟨"c1ccccc1", 5, 1⟩ : ScaffoldRow).avg =
          (groupValues [⟨"X", "High", "Cc1ccccc1", "c1ccccc1", 5⟩] "c1ccccc1").sum /
            (groupValues [⟨"X", "High", "Cc1ccccc1", "c1ccccc1", 5⟩] "c1ccccc1").length ∧
        (⟨"c1ccccc1", 5, 1⟩ : ScaffoldRow).count =
          (groupValues [⟨"X", "High", "Cc1ccccc1", "c1ccccc1", 5⟩] "c1ccccc1").length) := by
  have hmem : (⟨"c1ccccc1", 5, 1⟩ : ScaffoldRow) ∈
      scaffoldTable [⟨"X", "High", "Cc1ccccc1", "c1ccccc1", 5⟩] := by
    rw [scaffoldTable, List.mem_mergeSort]
    refine List.mem_map.mpr ⟨"c1ccccc1", by decide, ?_⟩
    have havg : groupMean [⟨"X", "High", "Cc1ccccc1", "c1ccccc1", 5⟩] "c1ccccc1" = 5 := by
      simp [groupMean, groupValues]
    have hcnt : groupCount [⟨"X", "High", "Cc1ccccc1", "c1ccccc1", 5⟩] "c1ccccc1" = 1 := by
      simp [groupCount, groupValues]
    rw [havg, hcnt]
  exact ⟨hmem, (scaffoldTable_mean_count_sorted _).1 _ hmem⟩

/-- C10: taking the top `k` entries of the sorted compound table, or of the
min-count-filtered scaffold table, always returns `min N k` entries, where
`N` is the number of available rows. -/
theorem displayTop_length (k minCompounds : ℕ) (df : List Record) :
    (displayTop k (sortValuesDesc df)).length = min df.length k ∧
      (displayTop k (filterMinCount (scaffoldTable df) minCompounds)).length =
        min (filterMinCount (scaffoldTable df) minCompounds).length k := by
  constructor
  · rw [displayTop, List.length_take, sortValuesDesc, List.length_mergeSort, Nat.min_comm]
  · rw [displayTop, List.length_take, Nat.min_comm]

/-- C1: on a list of structure strings that all parse, the fitted model's
prediction entry point returns exactly one scalar prediction per input, with
the prediction at position i computed from the input string at position i. -/
theorem predictMols_aligned {Mol : Type} (m : FittedModel Mol) (smiles : List String)
    (h : ∀ s ∈ smiles, (m.parse s).isSome) :
    ∃ ps : List ℚ, predictMols m smiles = some ps ∧ ps.length = smiles.length ∧
      ∀ (i : ℕ) (hi : i < smiles.length) (hp : i < ps.length),
        (m.parse (smiles.get ⟨i, hi⟩)).map m.predict = some (ps.get ⟨i, hp⟩) := by
  induction smiles with
  | nil => exact ⟨[], rfl, rfl, fun i hi _ => absurd hi (Nat.not_lt_zero i)⟩
  | cons s rest ih =>
    have hs := h s (List.mem_cons_self s rest)
    obtain ⟨mol, hmol⟩ := Option.isSome_iff_exists.mp hs
    obtain ⟨ps, hps, hlen, hal⟩ := ih (fun x hx => h x (List.mem_cons_of_mem s hx))
    refine ⟨m.predict mol :: ps, ?_, by simp [hlen], ?_⟩
    · simp [predictMols, hmol, hps]
    · intro i hi hp
      cases i with
      | zero => simp [hmol]
      | succ n =>
        simpa using hal n (Nat.lt_of_succ_lt_succ hi) (Nat.lt_of_succ_lt_succ hp)

theorem predictMols_aligned_witness :
    (∀ s ∈ list_of_smiles, (demoFitted.parse s).isSome) ∧
      (∃ ps : List ℚ, predictMols demoFitted list_of_smiles = some ps ∧
        ps.length = list_of_smiles.length ∧
        ∀ (i : ℕ) (hi : i < list_of_smiles.length) (hp : i < ps.length),
          (demoFitted.parse (list_of_smiles.get ⟨i, hi⟩)).map demoFitted.predict =
            some (ps.get ⟨i, hp⟩)) :=
  ⟨by decide, predictMols_aligned demoFitted list_of_smiles (by decide)⟩

/-- C2: with holdout fraction 0.2, the split of a shuffled copy of the
records yields train and test sets that partition the records (each record
is counted exactly once across the two sets, and, the records being
distinct, no record of the test set is in the training set), and the test
set's size is 20% of the record count within rounding. -/
theorem randomsplit_partition (df perm : List Record) (hperm : perm.Perm df)
    (hnodup : df.Nodup) :
    (∀ r : Record,
        ((randomsplit (1/5) perm).1.count r + (randomsplit (1/5) perm).2.count r =
          df.count r)) ∧
      (∀ r ∈ (randomsplit (1/5) perm).2, r ∉ (randomsplit (1/5) perm).1) ∧
      |(((randomsplit (1/5) perm).2.length : ℚ) - (1/5) * df.length)| < 1 := by
  set k := holdoutSize (1/5) perm.length with hk
  have hsplit : perm.take k ++ perm.drop k = perm := List.take_append_drop k perm
  refine ⟨?_, ?_, ?_⟩
  · intro r
    have hcnt : (perm.take k).count r + (perm.drop k).count r = perm.count r := by
      conv_rhs => rw [← hsplit]
      rw [List.count_append]
    have := hperm.count_eq r
    simp only [randomsplit, ← hk]
    omega
  · intro r hr
    have hpn : perm.Nodup := hperm.nodup_iff.mpr hnodup
    have hdisj := List.disjoint_take_drop (m := k) (n := k) hpn le_rfl
    simp only [randomsplit] at hr ⊢
    exact fun hmem => hdisj hr hmem
  · have hceil_nonneg : (0 : ℤ) ≤ Int.ceil ((1/5 : ℚ) * perm.length) :=
      Int.ceil_nonneg (by positivity)
    have hle : Int.ceil ((1/5 : ℚ) * perm.length) ≤ (perm.length : ℤ) := by
      rw [Int.ceil_le]
      push_cast
      nlinarith [@Nat.cast_nonneg ℚ _ perm.length]
    have hklen : k ≤ perm.length := by
      rw [hk, holdoutSize]
      omega
    have hlen2 : (randomsplit (1/5) perm).2.length = k := by
      simp only [randomsplit, List.length_take]
      omega
    have hcast : ((k : ℚ)) = ((Int.ceil ((1/5 : ℚ) * perm.length) : ℤ) : ℚ) := by
      rw [hk, holdoutSize]
      exact_mod_cast congrArg (fun z : ℤ => (z : ℚ)) (Int.toNat_of_nonneg hceil_nonneg)
    have hlendf : (perm.length : ℚ) = (df.length : ℚ) := by
      exact_mod_cast congrArg Nat.cast hperm.length_eq
    rw [hlen2, abs_lt]
    constructor
    · have hge := Int.le_ceil ((1/5 : ℚ) * perm.length)
      rw [hcast, ← hlendf]
      linarith
    · have hlt := Int.ceil_lt_add_one ((1/5 : ℚ) * perm.length)
      rw [hcast, ← hlendf]
      linarith

theorem randomsplit_partition_witness :
    ([⟨"X", "High", "C", "C", 5⟩, ⟨"X", "High", "N", "N", 6⟩] : List Record).Perm
        [⟨"X", "High", "C", "C", 5⟩, ⟨"X", "High", "N", "N", 6⟩] ∧
      ([⟨"X", "High", "C", "C", 5⟩, ⟨"X", "High", "N", "N", 6⟩] : List Record).Nodup ∧
      ((∀ r : Record,
          ((randomsplit (1/5) [⟨"X", "High", "C", "C", 5⟩, ⟨"X", "High", "N", "N", 6⟩]).1.count r +
              (randomsplit (1/5)
                  [⟨"X", "High", "C", "C", 5⟩, ⟨"X", "High", "N", "N", 6⟩]).2.count r =
            ([⟨"X", "High", "C", "C", 5⟩, ⟨"X", "High", "N", "N", 6⟩] : List Record).count r)) ∧
        (∀ r ∈ (randomsplit (1/5) [⟨"X", "High", "C", "C", 5⟩, ⟨"X", "High", "N", "N", 6⟩]).2,
            r ∉ (randomsplit (1/5) [⟨"X", "High", "C", "C", 5⟩, ⟨"X", "High", "N", "N", 6⟩]).1) ∧
        |(((randomsplit (1/5)
                [⟨"X", "High", "C", "C", 5⟩, ⟨"X", "High", "N", "N", 6⟩]).2.length : ℚ) -
            (1/5) * ([⟨"X", "High", "C", "C", 5⟩, ⟨"X", "High", "N", "N", 6⟩] : List Record).length)| <
          1) :=
  ⟨List.Perm.refl _, by decide,
    randomsplit_partition _ _ (List.Perm.refl _) (by decide)⟩

/-- C7: Morgan fingerprint computation with radius 3 and 2048 bits is
deterministic — recomputing the descriptor of the same structure yields the
same vector — and the vector has fixed length 2048. -/
theorem morganFP_deterministic_fixed_length (s : String) :
    morganFP 3 2048 s = morganFP 3 2048 s ∧ (morganFP 3 2048 s).length = 2048 :=
  ⟨rfl, by simp [morganFP]⟩

/-- C8: on a non-empty held-out set on which every prediction equals the
actual target value, the reported coefficient of determination is 1 and the
reported root mean square error is 0. -/
theorem perfect_predictions_metrics (l : List (ℚ × ℚ)) (_hne : l ≠ [])
    (hperf : ∀ p ∈ l, p.2 = p.1) :
    rsq l = 1 ∧ rmse l = 0 := by
  have hres : ssRes l = 0 := by
    rw [ssRes]
    apply List.sum_eq_zero
    intro x hx
    obtain ⟨p, hp, rfl⟩ := List.mem_map.mp hx
    rw [hperf p hp]
    ring
  refine ⟨?_, ?_⟩
  · rw [rsq, hres, zero_div, sub_zero]
  · rw [rmse, mse, hres, zero_div]
    simp

theorem perfect_predictions_metrics_witness :
    (([((7 : ℚ), (7 : ℚ))] : List (ℚ × ℚ)) ≠ [] ∧
        ∀ p ∈ ([((7 : ℚ), (7 : ℚ))] : List (ℚ × ℚ)), p.2 = p.1) ∧
      (rsq [((7 : ℚ), (7 : ℚ))] = 1 ∧ rmse [((7 : ℚ), (7 : ℚ))] = 0) :=
  ⟨⟨by decide, by decide⟩,
    perfect_predictions_metrics [((7 : ℚ), (7 : ℚ))] (by decide) (by decide)⟩

end QSAR
